import Mathlib

/-!
Shallow embedding of the seat-claim programs of `prisma-experiments`.

The repository contains three programs over the same Prisma schema
(`User`, `Movie`, `Seat(id, userId?, movieId, version)`):

* `claimSeat` — finds the first unclaimed seat for the movie
  "Hidden Figures" and claims it with a plain `update` whose `where`
  names only the seat id (no version condition, no version increment);
  it throws when the movie is booked out.
* `transactionT1` / `transactionT2` — the pessimistic lock demo: each
  reads a snapshot (user plus first unclaimed seat), then inside
  `$transaction` issues `updateMany` setting `userId` and
  `version: increment 1` under `where id = snapshot.id AND
  version = snapshot.version`, throwing on `count = 0`.  `transactionT1`
  issues its update through the transaction handle `tx`; `transactionT2`
  issues its update through the shared `client`, outside its own
  transaction scope.  Both catch every error and return `void`.
* `reserveSeatOCC` — the optimistic variant: read phase
  (`findUnique` user by email, `findFirst` seat with `claimedBy: null`
  for the movie) followed by the same conditional `updateMany`; on
  `count = 0` it throws "already booked" and catches it itself,
  returning `void` in every case.

The embedding models the database as lists of records; the asynchronous
race window between a program's read phase and its write phase is made
explicit by letting the two phases run against two database states
(`dbRead`, `dbWrite`): running both phases on one state is exactly the
sequential execution, and giving the write phase a later state models
another writer committing between the two awaits.
-/

/-- A `User` row: `id SERIAL PRIMARY KEY`, unique `email`, `name`. -/
structure User where
  id : Nat
  email : String
  name : String
deriving Repr, DecidableEq

/-- A `Movie` row: `id SERIAL PRIMARY KEY`, unique `name`. -/
structure Movie where
  id : Nat
  name : String
deriving Repr, DecidableEq

/-- A `Seat` row: `id`, nullable `userId` (the `claimedBy` foreign key,
`null` means unclaimed), required `movieId`, and the optimistic-locking
`version` counter. -/
structure Seat where
  id : Nat
  userId : Option Nat
  movieId : Nat
  version : Nat
deriving Repr, DecidableEq

/-- The persisted state: the three tables the claim programs touch. -/
structure Db where
  users : List User
  movies : List Movie
  seats : List Seat
deriving Repr, DecidableEq

/-- Row ids in the `Seat` table are unique (`"id" SERIAL NOT NULL`,
`CONSTRAINT "Seat_pkey" PRIMARY KEY ("id")`). -/
def Db.seatIdsNodup (db : Db) : Prop :=
  (db.seats.map Seat.id).Nodup

instance (db : Db) : Decidable db.seatIdsNodup := by
  unfold Db.seatIdsNodup; infer_instance

/-- `client.user.findUnique (where: \x7b email \x7d)`. -/
def userFindUnique (db : Db) (email : String) : Option User :=
  db.users.find? (fun u => u.email == email)

/-- The `where` filter of the seat read phase:
`movie: \x7b name: movieName \x7d, claimedBy: null`. -/
def seatMatchesFilter (db : Db) (movieName : String) (s : Seat) : Bool :=
  s.userId == none && db.movies.any (fun mv => mv.id == s.movieId && mv.name == movieName)

/-- `client.seat.findFirst` with the unclaimed-seat filter. -/
def seatFindFirst (db : Db) (movieName : String) : Option Seat :=
  db.seats.find? (seatMatchesFilter db movieName)

/-- The `where` condition of the conditional update:
`id = sid AND version = v`. -/
def claimMatch (sid v : Nat) (s : Seat) : Bool :=
  s.id == sid && s.version == v

/-- The `data` of the conditional update:
`userId: uid, version: \x7b increment: 1 \x7d`. -/
def applyClaim (uid : Nat) (s : Seat) : Seat :=
  { s with userId := some uid, version := s.version + 1 }

/-- `seat.updateMany (data: \x7b userId, version increment \x7d,
where: \x7b id, version \x7d)`: updates every matching row and reports
`result.count`, the number of rows affected. -/
def seatUpdateManyClaim (db : Db) (uid sid v : Nat) : Db × Nat :=
  ({ db with seats := db.seats.map (fun s => if claimMatch sid v s then applyClaim uid s else s) },
   db.seats.countP (fun s => claimMatch sid v s))

/-- The write phase of `claimSeat`: `seat.update (data: \x7b claimedBy:
connect uid \x7d, where: \x7b id: sid \x7d)` — no version condition and
no version increment. -/
def seatUpdateById (db : Db) (sid uid : Nat) : Db :=
  { db with seats := db.seats.map (fun s => if s.id == sid then { s with userId := some uid } else s) }

/-- Deleting a `User` under the migration's foreign key
`Seat_userId_fkey ... ON DELETE SET NULL`: the user row goes away and
every seat referencing it gets `userId = NULL`; no seat row is deleted. -/
def deleteUser (db : Db) (uid : Nat) : Db :=
  { db with
    users := db.users.filter (fun u => u.id != uid),
    seats := db.seats.map (fun s => if s.userId == some uid then { s with userId := none } else s) }

deriving instance DecidableEq for Except

/-- One store round trip issued by the optimistic claim; the trace of a
run records, in order, every read and every write the code performs. -/
inductive StoreOp where
  | readUser (email : String)
  | readSeat (movieName : String)
  | updateSeats (sid v count : Nat)
deriving Repr, DecidableEq

/-- Which branch of `reserveSeatOCC` a run took, as observable in its
console output: missing user, booked-out movie, a successful claim
(logged with the seat id and the new version), or the `count = 0`
conflict branch. -/
inductive OccOutcome where
  | userNotFound
  | noResourceAvailable
  | claimed (seatId newVersion : Nat)
  | conflict
deriving Repr, DecidableEq

/-- The full observable result of one `reserveSeatOCC` call: the
committed database afterwards, the branch taken, the store operations
issued, and what the awaiting caller receives (a thrown error, or a
normal `void` return). -/
structure OccRun where
  db : Db
  outcome : OccOutcome
  trace : List StoreOp
  ret : Except String Unit
deriving Repr, DecidableEq

/-- `reserveSeatOCC userEmail movieName` with the read phase executed
against `dbRead` and the write phase against `dbWrite`.  The function
never rethrows: the conflict branch throws "That seat is already
booked! Please try again." and catches it itself, so `ret` is `ok` on
every path. -/
def reserveSeatOCCSteps (dbRead dbWrite : Db) (userEmail movieName : String) : OccRun :=
  match userFindUnique dbRead userEmail with
  | none => ⟨dbWrite, .userNotFound, [.readUser userEmail], .ok ()⟩
  | some user =>
    match seatFindFirst dbRead movieName with
    | none => ⟨dbWrite, .noResourceAvailable, [.readUser userEmail, .readSeat movieName], .ok ()⟩
    | some availableSeat =>
      let upd := seatUpdateManyClaim dbWrite user.id availableSeat.id availableSeat.version
      if upd.2 = 0 then
        ⟨upd.1, .conflict,
          [.readUser userEmail, .readSeat movieName,
           .updateSeats availableSeat.id availableSeat.version 0], .ok ()⟩
      else
        ⟨upd.1, .claimed availableSeat.id (availableSeat.version + 1),
          [.readUser userEmail, .readSeat movieName,
           .updateSeats availableSeat.id availableSeat.version upd.2], .ok ()⟩

/-- `reserveSeatOCC` run without interference: read and write phases
against the same committed state. -/
def reserveSeatOCC (db : Db) (userEmail movieName : String) : OccRun :=
  reserveSeatOCCSteps db db userEmail movieName

/-- `claimSeat userId` with the read phase against `dbRead` and the
write phase against `dbWrite`.  The movie name is the constant
"Hidden Figures"; exhaustion is signalled by throwing (the `Error`
propagates to the caller); the write is `seat.update` by id only. -/
def claimSeatSteps (dbRead dbWrite : Db) (userId : Nat) : Db × Except String Unit :=
  match seatFindFirst dbRead "Hidden Figures" with
  | none => (dbWrite, .error "Oh no! Hidden Figures is all booked.")
  | some availableSeat => (seatUpdateById dbWrite availableSeat.id userId, .ok ())

/-- `claimSeat` run without interference. -/
def claimSeat (db : Db) (userId : Nat) : Db × Except String Unit :=
  claimSeatSteps db db userId

/-- Which branch `transactionT1` took: missing data, a committed claim
(with the new version), a `count = 0` conflict rollback, or a rollback
because the transaction's timeout elapsed. -/
inductive T1Outcome where
  | dataMissing
  | committedOk (newVersion : Nat)
  | conflictRolledBack
  | timedOutRolledBack
deriving Repr, DecidableEq

/-- The observable result of one `transactionT1` call. -/
structure T1Run where
  db : Db
  outcome : T1Outcome
  ret : Except String Unit
deriving Repr, DecidableEq

/-- `transactionT1`: read phase (user "sorcha@prisma.io", first
unclaimed "Hidden Figures" seat) against `dbRead`; then, inside
`$transaction`, the conditional `updateMany` issued on the transaction
handle `tx` against the committed state `dbTx`.  A `count = 0` result
throws inside the transaction, rolling it back.  `txTimesOut` models
the transaction's 7000 ms timeout elapsing during the deliberate
`pg_sleep` hold before commit: the transaction is rolled back and the
timeout error is thrown to the `catch`.  Every error is caught and
logged, so `ret` is `ok` on every path. -/
def transactionT1Run (dbRead dbTx : Db) (txTimesOut : Bool) : T1Run :=
  match userFindUnique dbRead "sorcha@prisma.io" with
  | none => ⟨dbTx, .dataMissing, .ok ()⟩
  | some user =>
    match seatFindFirst dbRead "Hidden Figures" with
    | none => ⟨dbTx, .dataMissing, .ok ()⟩
    | some availableSeat =>
      let upd := seatUpdateManyClaim dbTx user.id availableSeat.id availableSeat.version
      if upd.2 = 0 then ⟨dbTx, .conflictRolledBack, .ok ()⟩
      else if txTimesOut then ⟨dbTx, .timedOutRolledBack, .ok ()⟩
      else ⟨upd.1, .committedOk (availableSeat.version + 1), .ok ()⟩

/-- Which branch `transactionT2` took: missing data, the `count = 0`
conflict detected after its update was allowed to proceed, the rare
branch where its update succeeded, or the surrounding transaction
timing out. -/
inductive T2Outcome where
  | dataMissing
  | conflictDetected
  | t2Succeeded
  | txTimedOut
deriving Repr, DecidableEq

/-- The observable result of one `transactionT2` call. -/
structure T2Run where
  db : Db
  outcome : T2Outcome
  ret : Except String Unit
deriving Repr, DecidableEq

/-- `transactionT2`: read phase (user "ellen@prisma.io", first
unclaimed "Hidden Figures" seat) against `dbRead`.  Its `updateMany` is
issued on the shared `client`, not on the transaction handle `tx`, so
the write applies directly to the committed state `dbWrite` — in every
branch, including `txTimesOut` (the surrounding `$transaction`, which
contains no `tx` operation, rolls back without undoing it).  The store
lets the write proceed only once no other transaction holds the row
lock, so `dbWrite` is the committed state after any holder commits or
rolls back.  Every error is caught and logged, so `ret` is `ok` on
every path. -/
def transactionT2Run (dbRead dbWrite : Db) (txTimesOut : Bool) : T2Run :=
  match userFindUnique dbRead "ellen@prisma.io" with
  | none => ⟨dbWrite, .dataMissing, .ok ()⟩
  | some user =>
    match seatFindFirst dbRead "Hidden Figures" with
    | none => ⟨dbWrite, .dataMissing, .ok ()⟩
    | some availableSeat =>
      let upd := seatUpdateManyClaim dbWrite user.id availableSeat.id availableSeat.version
      if txTimesOut then ⟨upd.1, .txTimedOut, .ok ()⟩
      else if upd.2 = 0 then ⟨upd.1, .conflictDetected, .ok ()⟩
      else ⟨upd.1, .t2Succeeded, .ok ()⟩

/-! Concrete data mirroring `setupData`: the movie "Hidden Figures",
the users of the demo, and seat 1 at version 0, unclaimed. -/

/-- The movie row created by `setupData`. -/
def movieHF : Movie := ⟨10, "Hidden Figures"⟩

/-- The user row for "sorcha@prisma.io" (T1's requester). -/
def sorcha : User := ⟨2, "sorcha@prisma.io", "Sorcha"⟩

/-- The user row for "ellen@prisma.io" (T2's requester). -/
def ellen : User := ⟨3, "ellen@prisma.io", "Ellen"⟩

/-- Seat 1, version 0, unclaimed — the contended row of the demos. -/
def seat1 : Seat := ⟨1, none, 10, 0⟩

/-- The database right after `setupData`. -/
def db0 : Db := ⟨[sorcha, ellen], [movieHF], [seat1]⟩

/-- A database whose only "Hidden Figures" seat is already claimed. -/
def dbFull : Db := ⟨[sorcha, ellen], [movieHF], [⟨1, some 2, 10, 1⟩]⟩

/-! Helper lemmas about the conditional update. -/

/-- The update's `where` condition, in propositional form. -/
theorem claimMatch_iff {sid v : Nat} {s : Seat} :
    claimMatch sid v s = true ↔ s.id = sid ∧ s.version = v := by
  simp [claimMatch]

/-- `count = 0` means no stored row satisfied the `where` condition. -/
theorem seatUpdateManyClaim_count_zero {db : Db} {uid sid v : Nat} :
    (seatUpdateManyClaim db uid sid v).2 = 0 ↔ ∀ s ∈ db.seats, ¬claimMatch sid v s = true := by
  simp [seatUpdateManyClaim, List.countP_eq_zero]

/-- A conditional update that matches no row leaves the database
unchanged. -/
theorem seatUpdateManyClaim_fst_of_no_match {db : Db} {uid sid v : Nat}
    (h : ∀ s ∈ db.seats, ¬claimMatch sid v s = true) :
    (seatUpdateManyClaim db uid sid v).1 = db := by
  cases db with
  | mk users movies seats =>
    simp only [seatUpdateManyClaim]
    congr 1
    have hcong : seats.map (fun s => if claimMatch sid v s then applyClaim uid s else s)
        = seats.map id :=
      List.map_congr_left (fun s hs => by rw [if_neg (h s hs)]; rfl)
    rw [hcong, List.map_id]

/-- After any conditional update taken with snapshot `(sid, v)`, no row
of the resulting database satisfies `id = sid AND version = v` any
more: matched rows moved to version `v + 1`, and unmatched rows with
id `sid` already had a different version. -/
theorem no_match_after_seatUpdateManyClaim (db : Db) (uid sid v : Nat) :
    ∀ s ∈ (seatUpdateManyClaim db uid sid v).1.seats, ¬claimMatch sid v s = true := by
  intro s hs
  simp only [seatUpdateManyClaim, List.mem_map] at hs
  obtain ⟨t, ht, rfl⟩ := hs
  by_cases hm : claimMatch sid v t = true
  · rw [if_pos hm]
    rw [claimMatch_iff] at hm
    simp [claimMatch_iff, applyClaim, hm.2]
  · rw [if_neg hm]
    exact hm

/-- A second conditional update re-using the same stale snapshot
`(sid, v)` affects zero rows and leaves the database unchanged. -/
theorem seatUpdateManyClaim_stale (db : Db) (uid uid' sid v : Nat) :
    seatUpdateManyClaim (seatUpdateManyClaim db uid sid v).1 uid' sid v
      = ((seatUpdateManyClaim db uid sid v).1, 0) := by
  have h := no_match_after_seatUpdateManyClaim db uid sid v
  have hz : (seatUpdateManyClaim (seatUpdateManyClaim db uid sid v).1 uid' sid v).2 = 0 :=
    seatUpdateManyClaim_count_zero.mpr h
  have hf := @seatUpdateManyClaim_fst_of_no_match (seatUpdateManyClaim db uid sid v).1 uid' sid v h
  exact Prod.ext hf hz

/-- A nonzero `count` exhibits a stored row satisfying the `where`
condition. -/
theorem exists_match_of_count_ne_zero {db : Db} {uid sid v : Nat}
    (h : (seatUpdateManyClaim db uid sid v).2 ≠ 0) :
    ∃ s ∈ db.seats, claimMatch sid v s = true := by
  simp only [seatUpdateManyClaim] at h
  exact List.countP_pos_iff.mp (Nat.pos_of_ne_zero h)

/-- With unique seat ids, two stored seats with the same id are the
same row. -/
theorem seat_eq_of_id_eq {db : Db} (hnd : db.seatIdsNodup) {s t : Seat}
    (hs : s ∈ db.seats) (ht : t ∈ db.seats) (hid : s.id = t.id) : s = t :=
  List.inj_on_of_nodup_map hnd hs ht hid

/-- The conditional update never changes a row's `id`. -/
theorem seatUpdateManyClaim_preserves_id (uid sid v : Nat) (s : Seat) :
    (if claimMatch sid v s then applyClaim uid s else s).id = s.id := by
  by_cases hm : claimMatch sid v s = true
  · rw [if_pos hm]; rfl
  · rw [if_neg hm]

/-- With unique seat ids, every row of the updated database that
carries the target id is exactly the updated image of the matched
row. -/
theorem updated_row_of_id {db : Db} {uid sid v : Nat} (hnd : db.seatIdsNodup)
    {s : Seat} (hs : s ∈ db.seats) (hm : claimMatch sid v s = true) :
    ∀ t ∈ (seatUpdateManyClaim db uid sid v).1.seats, t.id = sid → t = applyClaim uid s := by
  intro t ht hid
  simp only [seatUpdateManyClaim, List.mem_map] at ht
  obtain ⟨r, hr, rfl⟩ := ht
  have hrid : r.id = sid := by
    have := seatUpdateManyClaim_preserves_id uid sid v r
    rw [← this, hid]
  have hrs : r = s := seat_eq_of_id_eq hnd hr hs (hrid.trans (claimMatch_iff.mp hm).1.symm)
  subst hrs
  rw [if_pos hm]

/-- C1.  The claim quantifies over *every* claim operation, but
`claimSeat`'s write phase updates by seat id alone, with no version
condition: starting from the seeded database, requester A
(`claimSeat` for user 2) claims seat 1; requester B, holding the stale
snapshot read before A's write, then runs `claimSeat`'s write phase for
user 3 — B's call returns normally (it reaches the success log, not any
conflict) and the stored row now says user 3: A's claim was silently
overwritten. -/
theorem claimSeat_silently_overwrites :
    (claimSeat db0 2).1.seats = [⟨1, some 2, 10, 0⟩] ∧
    (claimSeatSteps db0 (claimSeat db0 2).1 3).2 = Except.ok () ∧
    (claimSeatSteps db0 (claimSeat db0 2).1 3).1.seats = [⟨1, some 3, 10, 0⟩] := by
  decide

/-- C1 (amended to the version-checked claim operation): if requester
A's `reserveSeatOCC` call, read and written against `dbr`, observed
`Claimed`, then requester B's call that read the same `dbr` (stale
snapshot) but writes against A's committed state observes `Conflict`,
never `Claimed`, and its conditional update affects zero rows, leaving
A's claim in place. -/
theorem occ_no_silent_overwrite (dbr : Db) (eA eB m : String) (sid nv : Nat) (uB : User)
    (hA : (reserveSeatOCCSteps dbr dbr eA m).outcome = OccOutcome.claimed sid nv)
    (hB : userFindUnique dbr eB = some uB) :
    (reserveSeatOCCSteps dbr (reserveSeatOCCSteps dbr dbr eA m).db eB m).outcome
        = OccOutcome.conflict ∧
    (reserveSeatOCCSteps dbr (reserveSeatOCCSteps dbr dbr eA m).db eB m).db
        = (reserveSeatOCCSteps dbr dbr eA m).db := by
  cases hUA : userFindUnique dbr eA with
  | none => simp [reserveSeatOCCSteps, hUA] at hA
  | some uA =>
    cases hSF : seatFindFirst dbr m with
    | none => simp [reserveSeatOCCSteps, hUA, hSF] at hA
    | some seat =>
      by_cases hc : (seatUpdateManyClaim dbr uA.id seat.id seat.version).2 = 0
      · simp [reserveSeatOCCSteps, hUA, hSF, hc] at hA
      · have hAdb : (reserveSeatOCCSteps dbr dbr eA m).db
            = (seatUpdateManyClaim dbr uA.id seat.id seat.version).1 := by
          simp [reserveSeatOCCSteps, hUA, hSF, hc]
        rw [hAdb]
        have hstale := seatUpdateManyClaim_stale dbr uA.id uB.id seat.id seat.version
        simp [reserveSeatOCCSteps, hB, hSF, hstale]

/-- C1 witness: the amended theorem applied to the seeded database with
Sorcha as A and Ellen as B. -/
theorem occ_no_silent_overwrite_witness :
    (reserveSeatOCCSteps db0 (reserveSeatOCCSteps db0 db0 "sorcha@prisma.io" "Hidden Figures").db
        "ellen@prisma.io" "Hidden Figures").outcome = OccOutcome.conflict ∧
    (reserveSeatOCCSteps db0 (reserveSeatOCCSteps db0 db0 "sorcha@prisma.io" "Hidden Figures").db
        "ellen@prisma.io" "Hidden Figures").db
      = (reserveSeatOCCSteps db0 db0 "sorcha@prisma.io" "Hidden Figures").db :=
  occ_no_silent_overwrite db0 "sorcha@prisma.io" "ellen@prisma.io" "Hidden Figures" 1 1 ellen
    (by decide) (by decide)

/-- C2.  The claim asserts the +1 version step for *every* code path
that can establish a claim, but `claimSeat`'s update writes only the
owner reference: starting from the seeded database (seat 1, version 0,
unclaimed), `claimSeat` for user 2 establishes a claim (owner goes from
null to user 2) while the stored version stays 0 — not pre-claim
version + 1. -/
theorem claimSeat_keeps_version :
    db0.seats = [⟨1, none, 10, 0⟩] ∧
    (claimSeat db0 2).2 = Except.ok () ∧
    (claimSeat db0 2).1.seats = [⟨1, some 2, 10, 0⟩] := by
  decide

/-- C2 (amended to the conditional-update claim paths): whenever
`reserveSeatOCC` reports `Claimed(sid, nv)`, the stored row it updated
had version `nv - 1`, and afterwards every stored row with id `sid`
has exactly the old version + 1 and a non-null owner (the requester):
the version never stays put, decreases, or skips. -/
theorem occ_version_increments (db1 db2 : Db) (e m : String) (sid nv : Nat)
    (hnd : db2.seatIdsNodup)
    (h : (reserveSeatOCCSteps db1 db2 e m).outcome = OccOutcome.claimed sid nv) :
    ∃ u s, userFindUnique db1 e = some u ∧ s ∈ db2.seats ∧ s.id = sid ∧ s.version + 1 = nv ∧
      ∀ t ∈ (reserveSeatOCCSteps db1 db2 e m).db.seats, t.id = sid →
        t.version = s.version + 1 ∧ t.userId = some u.id := by
  cases hUA : userFindUnique db1 e with
  | none => simp [reserveSeatOCCSteps, hUA] at h
  | some u =>
    cases hSF : seatFindFirst db1 m with
    | none => simp [reserveSeatOCCSteps, hUA, hSF] at h
    | some seat =>
      by_cases hc : (seatUpdateManyClaim db2 u.id seat.id seat.version).2 = 0
      · simp [reserveSeatOCCSteps, hUA, hSF, hc] at h
      · have hout : OccOutcome.claimed seat.id (seat.version + 1) = OccOutcome.claimed sid nv := by
          simpa [reserveSeatOCCSteps, hUA, hSF, hc] using h
        have hsid : seat.id = sid := by injection hout
        have hnv : seat.version + 1 = nv := by injection hout
        obtain ⟨s, hs, hm⟩ := exists_match_of_count_ne_zero hc
        have hsv : s.version = seat.version := (claimMatch_iff.mp hm).2
        refine ⟨u, s, ?_, ?_, ?_, ?_, ?_⟩
        · exact hUA ▸ rfl
        · exact hs
        · exact (claimMatch_iff.mp hm).1.trans hsid
        · rw [hsv]; exact hnv
        · intro t ht hid
          have hdb : (reserveSeatOCCSteps db1 db2 e m).db
              = (seatUpdateManyClaim db2 u.id seat.id seat.version).1 := by
            simp [reserveSeatOCCSteps, hUA, hSF, hc]
          rw [hdb] at ht
          have := updated_row_of_id hnd hs hm t ht (hid.trans hsid.symm)
          subst this
          exact ⟨by simp [applyClaim, hsv], rfl⟩

/-- C2 witness: the amended theorem applied to the seeded database,
where Sorcha's claim moves seat 1 from version 0 to version 1. -/
theorem occ_version_increments_witness :
    ∃ u s, userFindUnique db0 "sorcha@prisma.io" = some u ∧ s ∈ db0.seats ∧ s.id = 1 ∧
      s.version + 1 = 1 ∧
      ∀ t ∈ (reserveSeatOCCSteps db0 db0 "sorcha@prisma.io" "Hidden Figures").db.seats, t.id = 1 →
        t.version = s.version + 1 ∧ t.userId = some u.id :=
  occ_version_increments db0 db0 "sorcha@prisma.io" "Hidden Figures" 1 1 (by decide) (by decide)

/-- C3.  Starting from the seeded database, Sorcha's call takes the
`Claimed` branch and Ellen's stale-snapshot call takes the `Conflict`
branch, yet both calls hand their awaiting caller the very same value —
a plain `void` return (`ok ()`).  The outcomes are not surfaced as
values of an `Outcome` vocabulary distinguishable to the caller: the
code logs them and, for conflict, throws and catches its own
exception. -/
theorem occ_outcome_not_a_return_value :
    (reserveSeatOCC db0 "sorcha@prisma.io" "Hidden Figures").outcome = OccOutcome.claimed 1 1 ∧
    (reserveSeatOCCSteps db0 (reserveSeatOCC db0 "sorcha@prisma.io" "Hidden Figures").db
        "ellen@prisma.io" "Hidden Figures").outcome = OccOutcome.conflict ∧
    (reserveSeatOCCSteps db0 (reserveSeatOCC db0 "sorcha@prisma.io" "Hidden Figures").db
        "ellen@prisma.io" "Hidden Figures").ret
      = (reserveSeatOCC db0 "sorcha@prisma.io" "Hidden Figures").ret := by
  decide

/-- C3 (amended): `reserveSeatOCC` never propagates conflict or
exhaustion to its caller by throwing — the conflict branch throws
"already booked" and catches it itself — but neither does it return
them: on every path, against any pair of database states, the caller
receives the same plain `void` return; the branch taken is observable
only in the console output. -/
theorem occ_always_returns_void (dbRead dbWrite : Db) (e m : String) :
    (reserveSeatOCCSteps dbRead dbWrite e m).ret = Except.ok () := by
  cases hUA : userFindUnique dbRead e with
  | none => simp [reserveSeatOCCSteps, hUA]
  | some u =>
    cases hSF : seatFindFirst dbRead m with
    | none => simp [reserveSeatOCCSteps, hUA, hSF]
    | some seat =>
      by_cases hc : (seatUpdateManyClaim dbWrite u.id seat.id seat.version).2 = 0 <;>
        simp [reserveSeatOCCSteps, hUA, hSF, hc]

/-- C4: whenever the conditional update of `reserveSeatOCC` affects
zero rows, the call takes the `Conflict` branch with the database left
exactly as the write phase found it, and its operation trace is
precisely one user read, one seat read and one conditional update
(count 0) — a single read-then-write cycle, no implicit retry. -/
theorem occ_conflict_single_cycle (dbRead dbWrite : Db) (e m : String)
    (h : (reserveSeatOCCSteps dbRead dbWrite e m).outcome = OccOutcome.conflict) :
    (reserveSeatOCCSteps dbRead dbWrite e m).db = dbWrite ∧
    ∃ seat, seatFindFirst dbRead m = some seat ∧
      (reserveSeatOCCSteps dbRead dbWrite e m).trace
        = [StoreOp.readUser e, StoreOp.readSeat m,
           StoreOp.updateSeats seat.id seat.version 0] := by
  cases hUA : userFindUnique dbRead e with
  | none => simp [reserveSeatOCCSteps, hUA] at h
  | some u =>
    cases hSF : seatFindFirst dbRead m with
    | none => simp [reserveSeatOCCSteps, hUA, hSF] at h
    | some seat =>
      by_cases hc : (seatUpdateManyClaim dbWrite u.id seat.id seat.version).2 = 0
      · have hdb : (seatUpdateManyClaim dbWrite u.id seat.id seat.version).1 = dbWrite :=
          seatUpdateManyClaim_fst_of_no_match (seatUpdateManyClaim_count_zero.mp hc)
        refine ⟨?_, seat, rfl, ?_⟩ <;> simp [reserveSeatOCCSteps, hUA, hSF, hc, hdb]
      · simp [reserveSeatOCCSteps, hUA, hSF, hc] at h

/-- C4 witness: Ellen's stale-snapshot call against Sorcha's committed
claim hits the zero-row case: one cycle, conflict, no mutation. -/
theorem occ_conflict_single_cycle_witness :
    (reserveSeatOCCSteps db0 (reserveSeatOCC db0 "sorcha@prisma.io" "Hidden Figures").db
        "ellen@prisma.io" "Hidden Figures").db
      = (reserveSeatOCC db0 "sorcha@prisma.io" "Hidden Figures").db ∧
    ∃ seat, seatFindFirst db0 "Hidden Figures" = some seat ∧
      (reserveSeatOCCSteps db0 (reserveSeatOCC db0 "sorcha@prisma.io" "Hidden Figures").db
          "ellen@prisma.io" "Hidden Figures").trace
        = [StoreOp.readUser "ellen@prisma.io", StoreOp.readSeat "Hidden Figures",
           StoreOp.updateSeats seat.id seat.version 0] :=
  occ_conflict_single_cycle db0 (reserveSeatOCC db0 "sorcha@prisma.io" "Hidden Figures").db
    "ellen@prisma.io" "Hidden Figures" (by decide)

/-- C5: once no seat of the movie class is unclaimed, a
`reserveSeatOCC` call by an existing user takes the
`NoResourceAvailable` branch, issues no write at all (its trace is the
two reads), leaves the database untouched, and running the call again
on the resulting state gives the identical run — exhaustion is a
stable, repeatable outcome. -/
theorem occ_exhaustion_stable (db : Db) (e m : String) (u : User)
    (hu : userFindUnique db e = some u)
    (hex : seatFindFirst db m = none) :
    (reserveSeatOCCSteps db db e m).outcome = OccOutcome.noResourceAvailable ∧
    (reserveSeatOCCSteps db db e m).db = db ∧
    (reserveSeatOCCSteps db db e m).trace = [StoreOp.readUser e, StoreOp.readSeat m] ∧
    reserveSeatOCCSteps (reserveSeatOCCSteps db db e m).db (reserveSeatOCCSteps db db e m).db e m
      = reserveSeatOCCSteps db db e m := by
  have hrun : reserveSeatOCCSteps db db e m
      = ⟨db, .noResourceAvailable, [.readUser e, .readSeat m], .ok ()⟩ := by
    simp [reserveSeatOCCSteps, hu, hex]
  have hdb : (reserveSeatOCCSteps db db e m).db = db := by rw [hrun]
  refine ⟨by rw [hrun], hdb, by rw [hrun], ?_⟩
  rw [hdb]

/-- C5 witness: the fully-booked database, where the only
"Hidden Figures" seat is already claimed. -/
theorem occ_exhaustion_stable_witness :
    (reserveSeatOCCSteps dbFull dbFull "sorcha@prisma.io" "Hidden Figures").outcome
        = OccOutcome.noResourceAvailable ∧
    (reserveSeatOCCSteps dbFull dbFull "sorcha@prisma.io" "Hidden Figures").db = dbFull ∧
    (reserveSeatOCCSteps dbFull dbFull "sorcha@prisma.io" "Hidden Figures").trace
        = [StoreOp.readUser "sorcha@prisma.io", StoreOp.readSeat "Hidden Figures"] ∧
    reserveSeatOCCSteps (reserveSeatOCCSteps dbFull dbFull "sorcha@prisma.io" "Hidden Figures").db
        (reserveSeatOCCSteps dbFull dbFull "sorcha@prisma.io" "Hidden Figures").db
        "sorcha@prisma.io" "Hidden Figures"
      = reserveSeatOCCSteps dbFull dbFull "sorcha@prisma.io" "Hidden Figures" :=
  occ_exhaustion_stable dbFull "sorcha@prisma.io" "Hidden Figures" sorcha (by decide) (by decide)

/-- C6.  `transactionT1` keeps its writes inside the transaction: on a
stale snapshot or a timeout the rollback leaves the committed state
exactly as it was.  But `transactionT2` issues its `updateMany` on the
shared `client`, not on the transaction handle `tx` it receives — the
write lands on the committed state outside the transaction scope.  At
the failing input (seeded database, T2's snapshot of seat 1 at
version 0 still valid, surrounding transaction rolled back by its
timeout), the supposedly rolled-back attempt has durably claimed the
seat for Ellen: the row is modified even though the attempt was
cancelled. -/
theorem t2_write_escapes_rollback :
    (transactionT1Run db0 db0 true).db = db0 ∧
    (transactionT1Run db0 dbFull false).db = dbFull ∧
    (transactionT2Run db0 db0 true).outcome = T2Outcome.txTimedOut ∧
    (transactionT2Run db0 db0 true).db ≠ db0 ∧
    (transactionT2Run db0 db0 true).db.seats = [⟨1, some 3, 10, 1⟩] := by
  decide

/-- C7: if `transactionT1`, reading and writing the seeded state `dbr`,
committed a claim (new version `nv`), then `transactionT2` — which read
the same pre-commit state `dbr`, was blocked by T1's row lock, and
whose update is therefore evaluated against T1's fully committed
state — sees its where-condition match zero rows, detects the conflict,
and leaves the committed state exactly as T1 left it.  The outcome is a
function of T1's committed state alone. -/
theorem lock_hold_conflict_after_wait (dbr : Db) (nv : Nat) (uE : User)
    (hE : userFindUnique dbr "ellen@prisma.io" = some uE)
    (h1 : (transactionT1Run dbr dbr false).outcome = T1Outcome.committedOk nv) :
    (transactionT2Run dbr (transactionT1Run dbr dbr false).db false).outcome
        = T2Outcome.conflictDetected ∧
    (transactionT2Run dbr (transactionT1Run dbr dbr false).db false).db
        = (transactionT1Run dbr dbr false).db := by
  cases hUS : userFindUnique dbr "sorcha@prisma.io" with
  | none => simp [transactionT1Run, hUS] at h1
  | some uS =>
    cases hSF : seatFindFirst dbr "Hidden Figures" with
    | none => simp [transactionT1Run, hUS, hSF] at h1
    | some seat =>
      by_cases hc : (seatUpdateManyClaim dbr uS.id seat.id seat.version).2 = 0
      · simp [transactionT1Run, hUS, hSF, hc] at h1
      · have hdb : (transactionT1Run dbr dbr false).db
            = (seatUpdateManyClaim dbr uS.id seat.id seat.version).1 := by
          simp [transactionT1Run, hUS, hSF, hc]
        rw [hdb]
        have hstale := seatUpdateManyClaim_stale dbr uS.id uE.id seat.id seat.version
        simp [transactionT2Run, hE, hSF, hstale]

/-- C7 witness: the seeded database; T1 commits version 1, T2 then
reports the conflict after its wait with the state unchanged. -/
theorem lock_hold_conflict_after_wait_witness :
    (transactionT2Run db0 (transactionT1Run db0 db0 false).db false).outcome
        = T2Outcome.conflictDetected ∧
    (transactionT2Run db0 (transactionT1Run db0 db0 false).db false).db
        = (transactionT1Run db0 db0 false).db :=
  lock_hold_conflict_after_wait db0 1 ellen (by decide) (by decide)

/-- C8.  A `transactionT1` run whose transaction times out and a run
that rolls back on a version conflict hand the caller the identical
plain `void` return: the code catches the timeout error and logs its
message, but no distinct `TimedOut` value is ever returned, so the
timed-out attempt is not distinguishable from a conflict in the
function's result. -/
theorem t1_timeout_return_indistinct :
    (transactionT1Run db0 db0 true).outcome = T1Outcome.timedOutRolledBack ∧
    (transactionT1Run db0 dbFull false).outcome = T1Outcome.conflictRolledBack ∧
    (transactionT1Run db0 db0 true).ret = (transactionT1Run db0 dbFull false).ret := by
  decide

/-- C8 (amended): when `transactionT1`'s timeout elapses, the
transaction rolls back — the committed state is exactly the state the
transaction started from, and no claim is committed — and the caught
error is only logged: the function returns plain `void`, with no
distinct `TimedOut` value surfaced to the caller. -/
theorem t1_timeout_rolls_back (dbRead dbTx : Db) :
    (transactionT1Run dbRead dbTx true).db = dbTx ∧
    (transactionT1Run dbRead dbTx true).ret = Except.ok () ∧
    ∀ nv, (transactionT1Run dbRead dbTx true).outcome ≠ T1Outcome.committedOk nv := by
  cases hUS : userFindUnique dbRead "sorcha@prisma.io" with
  | none => simp [transactionT1Run, hUS]
  | some uS =>
    cases hSF : seatFindFirst dbRead "Hidden Figures" with
    | none => simp [transactionT1Run, hUS, hSF]
    | some seat =>
      by_cases hc : (seatUpdateManyClaim dbTx uS.id seat.id seat.version).2 = 0 <;>
        simp [transactionT1Run, hUS, hSF, hc]

/-- C9: deleting an owner under `Seat_userId_fkey ... ON DELETE SET
NULL` maps every seat row, in place, to a row with the same id,
movieId and version whose owner reference is nullified exactly when it
pointed at the deleted owner — a previously-held seat reverts to
unclaimed (`userId = none`) with every other field intact, and a seat
the owner did not hold keeps its owner reference.  Consequently the
ids survive in order, no remaining seat references the deleted owner,
unheld seats are entirely unchanged as rows, and only the user row
itself is removed — seats are never cascade-deleted. -/
theorem deleteUser_nullifies_not_cascades (db : Db) (uid : Nat) :
    List.Forall₂
      (fun s t => t.id = s.id ∧ t.movieId = s.movieId ∧ t.version = s.version ∧
        (s.userId = some uid → t.userId = none) ∧
        (s.userId ≠ some uid → t.userId = s.userId))
      db.seats (deleteUser db uid).seats ∧
    (deleteUser db uid).seats.map Seat.id = db.seats.map Seat.id ∧
    (∀ s ∈ (deleteUser db uid).seats, s.userId ≠ some uid) ∧
    (∀ s ∈ db.seats, s.userId ≠ some uid → s ∈ (deleteUser db uid).seats) ∧
    (∀ u ∈ (deleteUser db uid).users, u.id ≠ uid) := by
  refine ⟨?_, ?_, ?_, ?_, ?_⟩
  · show List.Forall₂ _ db.seats
      (db.seats.map (fun s => if s.userId == some uid then { s with userId := none } else s))
    rw [List.forall₂_map_right_iff, List.forall₂_same]
    intro s _
    by_cases h : s.userId = some uid <;> simp [h]
  · simp only [deleteUser, List.map_map]
    apply List.map_congr_left
    intro s _
    by_cases h : s.userId = some uid <;> simp [Function.comp, h]
  · intro s hs
    simp only [deleteUser, List.mem_map] at hs
    obtain ⟨t, _, rfl⟩ := hs
    by_cases h : t.userId = some uid <;> simp [h]
  · intro s hs hne
    simp only [deleteUser, List.mem_map]
    exact ⟨s, hs, by simp [hne]⟩
  · intro u hu
    simp only [deleteUser, List.mem_filter, bne_iff_ne, ne_eq] at hu
    exact hu.2

/-- Among rows with pairwise distinct ids, a predicate that forces one
fixed id holds for at most one row. -/
theorem countP_le_one_of_id_key {l : List Seat} (h : (l.map Seat.id).Nodup)
    {p : Seat → Bool} {key : Nat} (hp : ∀ s, p s = true → s.id = key) :
    l.countP p ≤ 1 := by
  induction l with
  | nil => simp
  | cons a t ih =>
    simp only [List.map_cons, List.nodup_cons] at h
    by_cases hpa : p a = true
    · have ht0 : t.countP p = 0 := by
        rw [List.countP_eq_zero]
        intro s hs hps
        exact h.1 (((hp s hps).trans (hp a hpa).symm) ▸ List.mem_map_of_mem Seat.id hs)
      rw [List.countP_cons_of_pos p t hpa, ht0]
    · rw [List.countP_cons_of_neg p t hpa]
      exact ih h.2

/-- C10: the conditional claim update touches neither the `User` nor
the `Movie` table, preserves the `id` and `movieId` of every seat row
positionally, leaves every row that fails its where-condition entirely
unchanged, and — seat ids being unique — affects at most one row: a
successful claim writes only the `userId` and `version` fields of the
single target row. -/
theorem occ_update_frame (db : Db) (uid sid v : Nat) (hnd : db.seatIdsNodup) :
    (seatUpdateManyClaim db uid sid v).1.users = db.users ∧
    (seatUpdateManyClaim db uid sid v).1.movies = db.movies ∧
    (seatUpdateManyClaim db uid sid v).1.seats.map Seat.id = db.seats.map Seat.id ∧
    (seatUpdateManyClaim db uid sid v).1.seats.map Seat.movieId = db.seats.map Seat.movieId ∧
    (∀ s ∈ db.seats, ¬claimMatch sid v s = true → s ∈ (seatUpdateManyClaim db uid sid v).1.seats) ∧
    (seatUpdateManyClaim db uid sid v).2 ≤ 1 := by
  refine ⟨rfl, rfl, ?_, ?_, ?_, ?_⟩
  · simp only [seatUpdateManyClaim, List.map_map]
    apply List.map_congr_left
    intro s _
    by_cases h : claimMatch sid v s = true <;> simp [Function.comp, h, applyClaim]
  · simp only [seatUpdateManyClaim, List.map_map]
    apply List.map_congr_left
    intro s _
    by_cases h : claimMatch sid v s = true <;> simp [Function.comp, h, applyClaim]
  · intro s hs hne
    simp only [seatUpdateManyClaim, List.mem_map]
    exact ⟨s, hs, by rw [if_neg hne]⟩
  · exact countP_le_one_of_id_key hnd (fun s hps => (claimMatch_iff.mp hps).1)

/-- C10 witness: the seeded database, whose single seat row has a
unique id. -/
theorem occ_update_frame_witness :
    (seatUpdateManyClaim db0 2 1 0).1.users = db0.users ∧
    (seatUpdateManyClaim db0 2 1 0).1.movies = db0.movies ∧
    (seatUpdateManyClaim db0 2 1 0).1.seats.map Seat.id = db0.seats.map Seat.id ∧
    (seatUpdateManyClaim db0 2 1 0).1.seats.map Seat.movieId = db0.seats.map Seat.movieId ∧
    (∀ s ∈ db0.seats, ¬claimMatch 1 0 s = true → s ∈ (seatUpdateManyClaim db0 2 1 0).1.seats) ∧
    (seatUpdateManyClaim db0 2 1 0).2 ≤ 1 :=
  occ_update_frame db0 2 1 0 (by decide)
